import Mathlib

/-!
Verification of the conversation-orchestration and RAG core of the
Morgan AI backend (`BackEnd/app/app`): `ThreadManager`
(services/thread_manager.py), `OpenAIService.generate_chat_response` /
`_get_rag_context` (services/openai_service.py), the `ChatMessage` /
`ChatThread` models (models/chat.py) and `EmbeddingCache`
(utils/embeddings.py), shallowly embedded in Lean.

Python dictionaries are modelled as insertion-ordered association lists;
`datetime.utcnow()` values are modelled as natural-number instants supplied
by the caller; Python exceptions are modelled with `Except String`;
cosine-similarity scores are modelled as rationals.
-/

namespace MorganAI

/-- Decidable equality for `Except`, used to evaluate concrete runs. -/
instance exceptDecEq [DecidableEq ε] [DecidableEq α] :
    DecidableEq (Except ε α)
  | .ok x, .ok y =>
    match decEq x y with
    | isTrue h => isTrue (by rw [h])
    | isFalse h => isFalse (fun hh => h (by injection hh))
  | .ok _, .error _ => isFalse (fun hh => Except.noConfusion hh)
  | .error _, .ok _ => isFalse (fun hh => Except.noConfusion hh)
  | .error x, .error y =>
    match decEq x y with
    | isTrue h => isTrue (by rw [h])
    | isFalse h => isFalse (fun hh => h (by injection hh))

/-! ## Insertion-ordered dictionaries (Python `dict` / `defaultdict`) -/

/-- `k in d` for a Python dict. -/
def containsKey (l : List (String × α)) (k : String) : Bool :=
  l.any (fun p => p.1 == k)

/-- `d.get(k)` / `d[k]` lookup: first binding of the key. -/
def getKey? (l : List (String × α)) (k : String) : Option α :=
  (l.find? (fun p => p.1 == k)).map (fun p => p.2)

/-- `d.get(k, dflt)`; also `defaultdict` access for reads that do not insert. -/
def getKeyD (l : List (String × α)) (k : String) (d : α) : α :=
  (getKey? l k).getD d

/-- `d[k] = v`: update in place if the key is bound, else append (Python dicts
keep insertion order; re-assignment keeps the original position). -/
def setKey (l : List (String × α)) (k : String) (v : α) : List (String × α) :=
  if containsKey l k then l.map (fun p => if p.1 = k then (k, v) else p)
  else l ++ [(k, v)]

/-- `del d[k]` (on dicts whose keys are unique, removing every binding of `k`
coincides with removing the single one). -/
def delKey (l : List (String × α)) (k : String) : List (String × α) :=
  l.filter (fun p => p.1 != k)

/-- A dict is well formed when its keys are distinct, as Python dicts are. -/
def NodupKeys (l : List (String × α)) : Prop :=
  (l.map Prod.fst).Nodup

instance (l : List (String × α)) : Decidable (NodupKeys l) :=
  inferInstanceAs (Decidable (l.map Prod.fst).Nodup)

/-! ## Data model (models/chat.py)

`ChatMessage` and `ChatThread` are pydantic models: every declared field is
present on every instance (optional fields carry `None`), so Python
`hasattr(obj, field)` is `True` for each declared field.  The only part of a
message's `metadata` dict the core reads or writes is the `feedback`
sub-object, modelled as an optional field. -/

/-- The feedback record `add_feedback` stores under `metadata['feedback']`. -/
structure Feedback where
  rating : Int
  comment : Option String
  user_id : Option String
  timestamp : Nat
  deriving Repr, DecidableEq

/-- `ChatMessage` (models/chat.py lines 12-22).  `role` carries the string
value of the `MessageRole` enum (`use_enum_values = True`). -/
structure ChatMessage where
  message_id : Option String := none
  role : String
  content : String
  timestamp : Option Nat := none
  user_id : Option String := none
  feedback : Option Feedback := none
  deriving Repr, DecidableEq

/-- `hasattr(message, 'message_id')`: the field is declared on the pydantic
model, so the attribute exists on every instance. -/
def hasattrMessageId (_ : ChatMessage) : Bool := true

/-- `hasattr(message, 'timestamp')`: always true, as for `message_id`. -/
def hasattrTimestamp (_ : ChatMessage) : Bool := true

/-- `hasattr(message, 'metadata')`: always true (field with a default). -/
def hasattrMetadata (_ : ChatMessage) : Bool := true

/-- `hasattr(msg, 'role')` in the history loop: always true. -/
def hasattrRole (_ : ChatMessage) : Bool := true

/-- `hasattr(msg, 'content')` in the history loop: always true. -/
def hasattrContent (_ : ChatMessage) : Bool := true

/-- `getattr(message, 'message_id', '') == message_id` where the attribute is
always present with value `None` or a string: `None == s` is `False` in
Python for every string `s`. -/
def pyEqOptStr (o : Option String) (s : String) : Bool :=
  match o with
  | some t => t == s
  | none => false

/-- `ChatThread` (models/chat.py lines 24-33). -/
structure ChatThread where
  thread_id : String
  user_id : String
  title : Option String := none
  created_at : Option Nat := none
  updated_at : Option Nat := none
  message_count : Nat := 0
  is_active : Bool := true
  deriving Repr, DecidableEq

/-! ## ThreadManager (services/thread_manager.py) -/

/-- In-memory state of `ThreadManager.__init__`: `threads`, `messages`
(a `defaultdict(list)`) and `user_threads` (a `defaultdict(list)`). -/
structure ThreadManager where
  threads : List (String × ChatThread) := []
  messages : List (String × List ChatMessage) := []
  user_threads : List (String × List String) := []
  deriving Repr, DecidableEq

namespace ThreadManager

/-- `create_thread` (lines 20-47) with an explicit `thread_id` (the
`uuid.uuid4()` fallback is an environment-supplied fresh name and is passed
in by the caller here); `now` models the two `datetime.utcnow()` reads. -/
def create_thread (tm : ThreadManager) (user_id thread_id : String)
    (now : Nat) : ThreadManager × ChatThread :=
  let thread : ChatThread :=
    { thread_id := thread_id, user_id := user_id,
      created_at := some now, updated_at := some now }
  ({ tm with
      threads := setKey tm.threads thread_id thread,
      user_threads := setKey tm.user_threads user_id
        (getKeyD tm.user_threads user_id [] ++ [thread_id]) },
   thread)

/-- `get_thread` (lines 49-54): `self.threads.get(thread_id)`. -/
def get_thread (tm : ThreadManager) (thread_id : String) : Option ChatThread :=
  getKey? tm.threads thread_id

/-- The title computed at lines 107-110: `content[:50]`, with `"..."`
appended when `len(content) > 50`. -/
def titleOf (content : String) : String :=
  content.take 50 ++ (if content.length > 50 then "..." else "")

/-- `add_message` (lines 81-118).  `now` models the `datetime.utcnow()` read
at line 102 (the read at line 97 sits behind a `hasattr` guard that never
fires, see `hasattrTimestamp`).  `avail` models the environment inside the
`try` block: when `false`, an environment failure (e.g. the store being
unavailable) raises before any mutation, and the `except` at lines 116-118
re-raises it to the caller. -/
def add_message (tm : ThreadManager) (thread_id : String)
    (message : ChatMessage) (now : Nat) (avail : Bool := true) :
    Except String (ThreadManager × ChatMessage) :=
  if ¬ avail then .error "store unavailable"
  else if ¬ containsKey tm.threads thread_id then
    .error ("Thread " ++ thread_id ++ " not found")
  else
    let message :=
      if ¬ hasattrMessageId message then
        { message with message_id := some "fresh-uuid" } else message
    let message :=
      if ¬ hasattrTimestamp message then
        { message with timestamp := some now } else message
    let msgs := getKeyD tm.messages thread_id [] ++ [message]
    match getKey? tm.threads thread_id with
    | none => .error ("Thread " ++ thread_id ++ " not found")
    | some t =>
      let t := { t with updated_at := some now, message_count := msgs.length }
      let t :=
        if message.role == "user" && t.message_count == 1 then
          { t with title := some (titleOf message.content) }
        else t
      .ok ({ tm with
              threads := setKey tm.threads thread_id t,
              messages := setKey tm.messages thread_id msgs },
           message)

/-- `get_messages` (lines 120-148).  `a[-limit:]` keeps the most recent
`limit` messages; `if limit:` skips the slice for `None` and `0`.  Comparing
a `None` timestamp against a `before`/`after` bound raises `TypeError` in
Python, which the enclosing `except` converts to `[]`. -/
def get_messages (tm : ThreadManager) (thread_id : String)
    (limit : Option Nat := none) (before : Option Nat := none)
    (after : Option Nat := none) : List ChatMessage :=
  if ¬ containsKey tm.messages thread_id then []
  else
    let msgs := getKeyD tm.messages thread_id []
    if (before.isSome || after.isSome)
        && msgs.any (fun m => m.timestamp.isNone) then []
    else
      let msgs := match before with
        | some b => msgs.filter (fun m => m.timestamp.getD 0 < b)
        | none => msgs
      let msgs := match after with
        | some a => msgs.filter (fun m => a < m.timestamp.getD 0)
        | none => msgs
      match limit with
      | some l => if l ≠ 0 then msgs.drop (msgs.length - l) else msgs
      | none => msgs

/-- `delete_thread` (lines 150-175): a no-op when the thread is absent; the
body raises nothing, so the function is total. -/
def delete_thread (tm : ThreadManager) (thread_id : String) : ThreadManager :=
  if containsKey tm.threads thread_id then
    match getKey? tm.threads thread_id with
    | none => tm
    | some t =>
      let user_id := t.user_id
      let ut :=
        if containsKey tm.user_threads user_id then
          setKey tm.user_threads user_id
            ((getKeyD tm.user_threads user_id []).filter
              (fun tid => tid != thread_id))
        else tm.user_threads
      { tm with
          user_threads := ut,
          threads := delKey tm.threads thread_id,
          messages :=
            if containsKey tm.messages thread_id then
              delKey tm.messages thread_id
            else tm.messages }
  else tm

/-- The loop of `add_feedback` (lines 233-247): attach the feedback record
to the first message whose `message_id` equals the argument (then `break`);
leave the list unchanged when none matches. -/
def attachFeedbackFirst (message_id : String) (fb : Feedback) :
    List ChatMessage → List ChatMessage
  | [] => []
  | m :: rest =>
    if pyEqOptStr m.message_id message_id then
      { m with feedback := some fb } :: rest
    else m :: attachFeedbackFirst message_id fb rest

/-- `add_feedback` (lines 219-251): raises `ValueError` when `thread_id` has
no entry in `self.messages` (which is the case even for an existing thread
that has no messages yet); otherwise scans the thread's messages and
silently completes whether or not a message matched. -/
def add_feedback (tm : ThreadManager) (thread_id message_id : String)
    (rating : Int) (feedback : Option String) (user_id : Option String)
    (now : Nat) : Except String ThreadManager :=
  if ¬ containsKey tm.messages thread_id then
    .error ("Thread " ++ thread_id ++ " not found")
  else
    let fb : Feedback :=
      { rating := rating, comment := feedback, user_id := user_id,
        timestamp := now }
    let msgs := attachFeedbackFirst message_id fb
      (getKeyD tm.messages thread_id [])
    .ok { tm with messages := setKey tm.messages thread_id msgs }

end ThreadManager

/-! ## EmbeddingCache (utils/embeddings.py lines 248-300) -/

/-- An embedding vector (`List[float]`, modelled with rationals). -/
abbrev Emb := List ℚ

/-- `min(iterable, key=f)` over the bindings of `access_count`: Python's
`min` returns the first element attaining the minimum, so a strictly
smaller value is needed to displace the current best. -/
def minByVal (p : String × Nat) : List (String × Nat) → String × Nat
  | [] => p
  | q :: rest => if q.2 < p.2 then minByVal q rest else minByVal p rest

/-- State of `EmbeddingCache.__init__`: three dicts sharing one key set,
plus the capacity `max_size`. -/
structure EmbeddingCache where
  cache : List (String × Emb) := []
  max_size : Nat := 1000
  access_count : List (String × Nat) := []
  created_at : List (String × Nat) := []
  deriving Repr, DecidableEq

namespace EmbeddingCache

/-- `get` (lines 257-262): on a hit, increment the entry's access counter
and return the vector; returns the new state and the result. -/
def get (c : EmbeddingCache) (key : String) :
    EmbeddingCache × Option Emb :=
  if containsKey c.cache key then
    let newCount := getKeyD c.access_count key 0 + 1
    ({ c with access_count := setKey c.access_count key newCount },
     getKey? c.cache key)
  else (c, none)

/-- `_evict_lru` (lines 274-285): do nothing on an empty cache; otherwise
delete the binding whose access counter is smallest (first such in dict
order) from all three dicts. -/
def evictLru (c : EmbeddingCache) : EmbeddingCache :=
  match c.cache with
  | [] => c
  | _ =>
    match c.access_count with
    | [] => c
    | p :: rest =>
      let lru_key := (minByVal p rest).1
      { c with
          cache := delKey c.cache lru_key,
          access_count := delKey c.access_count lru_key,
          created_at := delKey c.created_at lru_key }

/-- `set` (lines 264-272): evict when `len(self.cache) >= self.max_size`,
then insert the new binding with access counter `0`. -/
def set (c : EmbeddingCache) (key : String) (embedding : Emb)
    (now : Nat) : EmbeddingCache :=
  let c := if c.cache.length ≥ c.max_size then evictLru c else c
  { c with
      cache := setKey c.cache key embedding,
      access_count := setKey c.access_count key 0,
      created_at := setKey c.created_at key now }

end EmbeddingCache

/-! ## RAG retrieval (services/openai_service.py lines 153-193)

`_get_rag_context` calls `generate_embedding` and
`PineconeService.query_vectors`; both are network calls that may raise, and
`query_vectors` (services/pinecone_service.py lines 103-144) passes the
vector index's matches through unchanged (`{id, score, metadata}`), so the
number and order of matches is whatever the index returns.  Both calls are
modelled as `Except`-valued inputs. -/

/-- The two metadata keys `_get_rag_context` reads, with the defaults it
uses (`metadata.get("text", "")`, `metadata.get("source", "Unknown")`). -/
structure MatchMeta where
  text : String := ""
  source : String := "Unknown"
  deriving Repr, DecidableEq

/-- One element of `query_vectors`' result: `match.get("score", 0)` and
`match.get("metadata")`. -/
structure QueryMatch where
  score : ℚ := 0
  metadata : Option MatchMeta := none
  deriving Repr, DecidableEq

/-- The formatted context part for one retained match:
`f"[Source: {source}]\n{text}"`. -/
def fmtPart (md : MatchMeta) : String :=
  "[Source: " ++ md.source ++ "]\n" ++ md.text

/-- The literal threshold `0.5` of line 180, as the rational one half. -/
def scoreThreshold : ℚ := mkRat 1 2

/-- The score test at line 180: `if score and score > 0.5` — `score` must
be truthy (non-zero) and strictly greater than `0.5`. -/
def scoreKept (s : ℚ) : Bool :=
  (s != 0) && (scoreThreshold < s)

/-- The loop at lines 168-184 building `context_parts`: a match contributes
one part when it has metadata and passes the score test. -/
def contextParts : List QueryMatch → List String
  | [] => []
  | m :: rest =>
    match m.metadata with
    | some md =>
      if scoreKept m.score then fmtPart md :: contextParts rest
      else contextParts rest
    | none => contextParts rest

/-- The matches actually retained by the `contextParts` loop (metadata
present and score kept), in loop order. -/
def ragRetained (results : List QueryMatch) : List QueryMatch :=
  results.filter (fun m => m.metadata.isSome && scoreKept m.score)

/-- `_get_rag_context` (lines 153-193): embed the query, query the vector
index, join the retained parts with `"\n\n"`; any exception from either
backend call is caught at line 189 and turned into `""`. -/
def getRagContext (embedRes : Except String Emb)
    (queryRes : Emb → Except String (List QueryMatch)) : String :=
  match embedRes with
  | .error _ => ""
  | .ok emb =>
    match queryRes emb with
    | .error _ => ""
    | .ok results => String.intercalate "\n\n" (contextParts results)

/-! ## Prompt assembly and the chat pipeline
(services/openai_service.py lines 59-151) -/

/-- One element of the `messages` array sent to the generation backend. -/
structure Turn where
  role : String
  content : String
  deriving Repr, DecidableEq

/-- The `messages` array built at lines 75-100, as a function of the system
prompt, the history returned by `get_messages`, the RAG context string and
the new user message: system turn, then the history turns (each guarded by
`hasattr` checks that always pass), then — only when the context string is
non-empty — one system turn carrying the context, then the user turn. -/
def buildMessages (system_prompt : String) (history : List ChatMessage)
    (context : String) (message : String) : List Turn :=
  let messages : List Turn := [{ role := "system", content := system_prompt }]
  let messages := messages ++ history.filterMap (fun m =>
    if hasattrRole m && hasattrContent m then
      some { role := m.role, content := m.content }
    else none)
  let messages :=
    if context ≠ "" then
      messages ++ [{ role := "system",
                     content := "Context from knowledge base:\n" ++ context }]
    else messages
  messages ++ [{ role := "user", content := message }]

/-- Modelled from the spec: the turn order §4.4 prescribes for
`PromptAssembler.build` — system turn first, then one system turn carrying
the retrieved context (present only if the context is non-empty), then the
history turns in chronological order, then the new user turn last.  Used
only to compare the spec's order against `buildMessages`. -/
def buildMessagesSpecOrder (system_prompt : String)
    (history : List ChatMessage) (context : String) (message : String) :
    List Turn :=
  [{ role := "system", content := system_prompt }]
    ++ (if context ≠ "" then
          [{ role := "system",
             content := "Context from knowledge base:\n" ++ context }]
        else [])
    ++ history.map (fun m => { role := m.role, content := m.content })
    ++ [{ role := "user", content := message }]

/-- Failure modes of the generation backend (§6: `RateLimited`, `Timeout`,
`InvalidRequest`). -/
inductive GenError
  | rateLimited
  | timeout
  | invalidRequest
  deriving Repr, DecidableEq

/-- Transient failures are those §7 expects to resolve on retry. -/
def GenError.transient : GenError → Bool
  | .rateLimited => true
  | .timeout => true
  | .invalidRequest => false

/-- `str(e)` for a backend exception, as interpolated into the failure
dict's `error` field. -/
def GenError.msg : GenError → String
  | .rateLimited => "Rate limit exceeded"
  | .timeout => "Request timed out"
  | .invalidRequest => "Invalid request"

/-- The dict `generate_chat_response` returns: the success dict of lines
137-144 or the failure dict of lines 147-151 (which carries only `success`,
`error` and the apology `response`). -/
structure ChatResult where
  success : Bool
  response : String
  error : Option String := none
  session_id : Option String := none
  timestamp : Option Nat := none
  context_used : Option Bool := none
  model : Option String := none
  deriving Repr, DecidableEq

/-- The failure dict at lines 147-151. -/
def failureResult (e : String) : ChatResult :=
  { success := false, error := some e,
    response := "I apologize, but I encountered an error. Please try again." }

/-- The environment one attempt of `generate_chat_response` interacts
with: the embedding call and vector-index query behind `_get_rag_context`,
the generation call (`client.chat.completions.create`), the availability of
the store for each of the two `add_message` calls, and the `utcnow` instants
read when building the two messages (lines 122, 128), inside each
`add_message` (line 102 of thread_manager.py) and for the result timestamp
(line 141). -/
structure AttemptEnv where
  embedRes : Except String Emb := .ok []
  queryRes : Emb → Except String (List QueryMatch) := fun _ => .ok []
  gen : Except GenError String
  userAvail : Bool := true
  asstAvail : Bool := true
  tUser : Nat := 0
  tAsst : Nat := 0
  tAddUser : Nat := 0
  tAddAsst : Nat := 0
  tResult : Nat := 0

/-- The body of `generate_chat_response` (lines 69-151), one attempt: build
the history and prompt, generate, persist the user and assistant messages
through two separate `add_message` calls, and convert every raised
exception into the failure dict (the outer `except` at lines 145-151) —
mutations already performed by the first `add_message` are retained when
the second one raises. -/
def generateChatResponseBody (tm : ThreadManager)
    (system_prompt chat_model : String) (message session_id : String)
    (user_id : Option String) (use_rag : Bool) (env : AttemptEnv) :
    ThreadManager × ChatResult :=
  let history := tm.get_messages session_id (some 10) none none
  let context :=
    if use_rag then getRagContext env.embedRes env.queryRes else ""
  let _msgs := buildMessages system_prompt history context message
  match env.gen with
  | .error e => (tm, failureResult e.msg)
  | .ok ai_response =>
    let user_msg : ChatMessage :=
      { role := "user", content := message,
        timestamp := some env.tUser, user_id := user_id }
    let assistant_msg : ChatMessage :=
      { role := "assistant", content := ai_response,
        timestamp := some env.tAsst, user_id := user_id }
    match tm.add_message session_id user_msg env.tAddUser env.userAvail with
    | .error e => (tm, failureResult e)
    | .ok (tm1, _) =>
      match tm1.add_message session_id assistant_msg env.tAddAsst
          env.asstAvail with
      | .error e => (tm1, failureResult e)
      | .ok (tm2, _) =>
        (tm2,
         { success := true, response := ai_response,
           session_id := some session_id,
           timestamp := some env.tResult,
           context_used := some (context != ""),
           model := some chat_model })

/-- The `tenacity` retry loop (`@retry(stop=stop_after_attempt(n), ...)`,
modelled from the library's documented behaviour): run attempt `start`;
when it raises and fewer than `n` attempts have run, sleep and retry,
otherwise propagate.  Only a raised exception triggers a retry — a
normally returned value is passed through at once. -/
def tenacityAttempts (f : Nat → Except String α) (start : Nat) :
    Nat → Except String α
  | 0 => f start
  | 1 => f start
  | k + 2 =>
    match f start with
    | .ok a => .ok a
    | .error _ => tenacityAttempts f (start + 1) (k + 1)

/-- One attempt of the decorated coroutine, as `tenacity` sees it: the
body's top-level `try/except` returns the failure dict instead of raising,
so every attempt terminates normally (`.ok`). -/
def attemptCall (tm : ThreadManager) (system_prompt chat_model : String)
    (message session_id : String) (user_id : Option String) (use_rag : Bool)
    (envs : Nat → AttemptEnv) (i : Nat) :
    Except String (ThreadManager × ChatResult) :=
  .ok (generateChatResponseBody tm system_prompt chat_model message
    session_id user_id use_rag (envs i))

/-- `generate_chat_response` as called: the `@retry` decorator at line 59
wrapping the body with `stop_after_attempt(3)`. -/
def generate_chat_response (tm : ThreadManager)
    (system_prompt chat_model : String) (message session_id : String)
    (user_id : Option String) (use_rag : Bool) (envs : Nat → AttemptEnv) :
    Except String (ThreadManager × ChatResult) :=
  tenacityAttempts
    (attemptCall tm system_prompt chat_model message session_id user_id
      use_rag envs) 0 3

/-! ## Sequences of exchanges

One "appendExchange" of the spec is the persist segment of a successful
`generate_chat_response`: the two `add_message` calls at lines 131-132. -/

/-- The caller-visible data of one exchange: the user message, the
assistant's reply, and the `utcnow` instants read for the two messages. -/
structure ExchangeCall where
  userContent : String
  asstReply : String
  uid : Option String := none
  tUser : Nat
  tAsst : Nat
  deriving Repr, DecidableEq

/-- The environment of an exchange whose generation succeeds and whose
store stays available. -/
def exchangeEnv (e : ExchangeCall) : AttemptEnv :=
  { gen := .ok e.asstReply, tUser := e.tUser, tAsst := e.tAsst,
    tAddUser := e.tUser, tAddAsst := e.tAsst }

/-- The user message persisted by the exchange (lines 119-124). -/
def userMsgOf (e : ExchangeCall) : ChatMessage :=
  { role := "user", content := e.userContent, timestamp := some e.tUser,
    user_id := e.uid }

/-- The assistant message persisted by the exchange (lines 125-130). -/
def asstMsgOf (e : ExchangeCall) : ChatMessage :=
  { role := "assistant", content := e.asstReply, timestamp := some e.tAsst,
    user_id := e.uid }

/-- One full `generate_chat_response` body run for an exchange (RAG off —
retrieval does not touch the store), keeping the resulting store. -/
def runExchange (tm : ThreadManager) (system_prompt chat_model sid : String)
    (e : ExchangeCall) : ThreadManager :=
  (generateChatResponseBody tm system_prompt chat_model e.userContent sid
    e.uid false (exchangeEnv e)).1

/-- A sequence of exchange calls on one thread, run in order. -/
def runExchanges (tm : ThreadManager)
    (system_prompt chat_model sid : String) :
    List ExchangeCall → ThreadManager
  | [] => tm
  | e :: rest =>
    runExchanges (runExchange tm system_prompt chat_model sid e)
      system_prompt chat_model sid rest

/-! ## Concrete inputs used by witnesses and counterexamples -/

/-- An empty manager holding the single thread `"t1"` of user `"u1"`. -/
def tmT1 : ThreadManager := (ThreadManager.create_thread {} "u1" "t1" 0).1

/-- `tmT1` after one fully persisted exchange. -/
def tmT1WithMsgs : ThreadManager :=
  (generateChatResponseBody tmT1 "sys" "gpt-4" "hello" "t1" none false
    { gen := .ok "reply", tUser := 1, tAsst := 2, tAddUser := 1,
      tAddAsst := 2 }).1

/-- Environment in which generation succeeds but the store fails while
persisting the assistant message of the exchange. -/
def c1cxEnv : AttemptEnv :=
  { gen := .ok "reply", asstAvail := false, tUser := 1, tAsst := 2,
    tAddUser := 1, tAddAsst := 2 }

/-- Backend behaviour of the spec's Scenario C: a transient timeout on the
first two attempts, success on the third. -/
def scenarioCEnvs : Nat → AttemptEnv :=
  fun i => if i < 2 then { gen := .error .timeout }
           else { gen := .ok "reply" }

/-- The Python-dict invariants `EmbeddingCache` maintains by construction:
`cache` and `access_count` hold the same keys in the same order, and keys
are unique. -/
def CacheWf (c : EmbeddingCache) : Prop :=
  c.cache.map Prod.fst = c.access_count.map Prod.fst ∧ NodupKeys c.cache

instance (c : EmbeddingCache) : Decidable (CacheWf c) :=
  inferInstanceAs (Decidable (_ ∧ _))

/-- A full cache of capacity 1. -/
def cacheOne : EmbeddingCache :=
  { cache := [("a", [])], max_size := 1, access_count := [("a", 0)],
    created_at := [("a", 0)] }

/-- A capacity-0 cache (the `max_size = 0` corner of `EmbeddingCache`). -/
def cacheZero : EmbeddingCache :=
  { cache := [], max_size := 0, access_count := [], created_at := [] }

/-- Three vector-index matches with descending scores 0.9, 0.6, 0.4. -/
def c5Matches : List QueryMatch :=
  [ { score := mkRat 9 10, metadata := some { text := "t1", source := "s1" } },
    { score := mkRat 3 5, metadata := some { text := "t2", source := "s2" } },
    { score := mkRat 2 5, metadata := some { text := "t3", source := "s3" } } ]

/-- The store reached by a successful `add_message`, when there is one. -/
def okState (r : Except String (ThreadManager × ChatMessage)) :
    Option ThreadManager :=
  match r with
  | .ok p => some p.1
  | .error _ => none

/-- The message returned by a successful `add_message`, when there is one. -/
def okMsg (r : Except String (ThreadManager × ChatMessage)) :
    Option ChatMessage :=
  match r with
  | .ok p => some p.2
  | .error _ => none

/-- A 51-character message content (one character past the title cut). -/
def c7Content : String :=
  "aaaaaaaaaaaaaaaaaaaaaaaaaaaaaaaaaaaaaaaaaaaaaaaaaaa"

/-- A history of one user turn. -/
def c3History : List ChatMessage := [{ role := "user", content := "h" }]

/-- Two exchange calls with strictly increasing clock instants. -/
def c1Calls : List ExchangeCall :=
  [{ userContent := "q1", asstReply := "r1", tUser := 1, tAsst := 2 },
   { userContent := "q2", asstReply := "r2", tUser := 3, tAsst := 4 }]

/-- An environment whose vector index is unreachable while generation
succeeds. -/
def c4Env : AttemptEnv :=
  { gen := .ok "reply", embedRes := .ok [],
    queryRes := fun _ => .error "index unreachable",
    tUser := 1, tAsst := 2, tAddUser := 1, tAddAsst := 2 }

/-! ## Dictionary lemmas -/

theorem getKey?_cons (p : String × α) (l : List (String × α)) (k : String) :
    getKey? (p :: l) k = if p.1 = k then some p.2 else getKey? l k := by
  by_cases h : p.1 = k <;> simp [getKey?, List.find?_cons, h]

theorem containsKey_cons_iff {p : String × α} {l : List (String × α)}
    {k : String} :
    containsKey (p :: l) k = true ↔ p.1 = k ∨ containsKey l k = true := by
  simp [containsKey, List.any_cons]

theorem containsKey_cons_false_iff {p : String × α} {l : List (String × α)}
    {k : String} :
    containsKey (p :: l) k = false ↔ p.1 ≠ k ∧ containsKey l k = false := by
  simp [containsKey, List.any_cons]

theorem containsKey_iff_mem_keys {l : List (String × α)} {k : String} :
    containsKey l k = true ↔ k ∈ l.map Prod.fst := by
  simp [containsKey, List.any_eq_true, List.mem_map]

theorem delKey_cons (p : String × α) (l : List (String × α)) (k : String) :
    delKey (p :: l) k = if p.1 = k then delKey l k else p :: delKey l k := by
  by_cases h : p.1 = k <;> simp [delKey, List.filter_cons, h]

theorem getKey?_eq_none_of_not_contains {l : List (String × α)} {k : String}
    (h : containsKey l k = false) : getKey? l k = none := by
  induction l with
  | nil => rfl
  | cons p rest ih =>
    rw [containsKey_cons_false_iff] at h
    rw [getKey?_cons, if_neg h.1, ih h.2]

theorem getKey?_isSome_of_contains {l : List (String × α)} {k : String}
    (h : containsKey l k = true) : ∃ v, getKey? l k = some v := by
  induction l with
  | nil => simp [containsKey] at h
  | cons p rest ih =>
    rw [getKey?_cons]
    by_cases hp : p.1 = k
    · exact ⟨p.2, by rw [if_pos hp]⟩
    · rcases containsKey_cons_iff.mp h with h1 | h2
      · exact absurd h1 hp
      · rcases ih h2 with ⟨v, hv⟩
        exact ⟨v, by rw [if_neg hp, hv]⟩

theorem getKey?_delKey_self (l : List (String × α)) (k : String) :
    getKey? (delKey l k) k = none := by
  induction l with
  | nil => rfl
  | cons p rest ih =>
    rw [delKey_cons]
    by_cases h : p.1 = k
    · rw [if_pos h]; exact ih
    · rw [if_neg h, getKey?_cons, if_neg h]; exact ih

theorem containsKey_delKey_self (l : List (String × α)) (k : String) :
    containsKey (delKey l k) k = false := by
  induction l with
  | nil => rfl
  | cons p rest ih =>
    rw [delKey_cons]
    by_cases h : p.1 = k
    · rw [if_pos h]; exact ih
    · rw [if_neg h]
      exact containsKey_cons_false_iff.mpr ⟨h, ih⟩

theorem delKey_eq_self_of_not_contains {l : List (String × α)} {k : String}
    (h : containsKey l k = false) : delKey l k = l := by
  induction l with
  | nil => rfl
  | cons p rest ih =>
    rw [containsKey_cons_false_iff] at h
    rw [delKey_cons, if_neg h.1, ih h.2]

theorem getKey?_map_update_self {l : List (String × α)} {k : String} (v : α)
    (hc : containsKey l k = true) :
    getKey? (l.map (fun p => if p.1 = k then (k, v) else p)) k = some v := by
  induction l with
  | nil => simp [containsKey] at hc
  | cons p rest ih =>
    by_cases h : p.1 = k
    · simp [getKey?_cons, h]
    · rcases containsKey_cons_iff.mp hc with h1 | h2
      · exact absurd h1 h
      · simp only [List.map_cons, if_neg h]
        rw [getKey?_cons, if_neg h]
        exact ih h2

theorem getKey?_append_single_self (l : List (String × α)) (k : String)
    (v : α) (h : containsKey l k = false) :
    getKey? (l ++ [(k, v)]) k = some v := by
  induction l with
  | nil => simp [getKey?_cons]
  | cons p rest ih =>
    rw [containsKey_cons_false_iff] at h
    rw [List.cons_append, getKey?_cons, if_neg h.1, ih h.2]

theorem getKey?_setKey_self (l : List (String × α)) (k : String) (v : α) :
    getKey? (setKey l k v) k = some v := by
  unfold setKey
  by_cases hc : containsKey l k = true
  · rw [if_pos hc]
    exact getKey?_map_update_self v hc
  · rw [Bool.not_eq_true] at hc
    rw [if_neg (by rw [hc]; exact Bool.false_ne_true)]
    exact getKey?_append_single_self l k v hc

theorem containsKey_setKey_self (l : List (String × α)) (k : String)
    (v : α) : containsKey (setKey l k v) k = true := by
  by_contra h
  rw [Bool.not_eq_true] at h
  have h2 := getKey?_eq_none_of_not_contains h
  rw [getKey?_setKey_self] at h2
  exact Option.noConfusion h2

theorem getKey?_map_update_ne {l : List (String × α)} {k k' : String}
    (v : α) (h : k' ≠ k) :
    getKey? (l.map (fun p => if p.1 = k then (k, v) else p)) k'
      = getKey? l k' := by
  induction l with
  | nil => rfl
  | cons p rest ih =>
    by_cases hp : p.1 = k
    · simp only [List.map_cons, if_pos hp]
      rw [getKey?_cons, getKey?_cons,
        if_neg (show ¬ ((k, v).1 = k') from fun hh => h (hh.symm)),
        if_neg (show ¬ (p.1 = k') from by rw [hp]; exact fun hh => h hh.symm)]
      exact ih
    · simp only [List.map_cons, if_neg hp]
      rw [getKey?_cons, getKey?_cons]
      by_cases hpk : p.1 = k'
      · rw [if_pos hpk, if_pos hpk]
      · rw [if_neg hpk, if_neg hpk]
        exact ih

theorem getKey?_append_single_ne (l : List (String × α)) {k k' : String}
    (v : α) (h : k' ≠ k) :
    getKey? (l ++ [(k, v)]) k' = getKey? l k' := by
  induction l with
  | nil =>
    simp [getKey?_cons, show ¬ ((k, v).1 = k') from fun hh => h hh.symm]
  | cons p rest ih =>
    rw [List.cons_append, getKey?_cons, getKey?_cons]
    by_cases hpk : p.1 = k'
    · rw [if_pos hpk, if_pos hpk]
    · rw [if_neg hpk, if_neg hpk]
      exact ih

theorem getKey?_setKey_ne (l : List (String × α)) {k k' : String} (v : α)
    (h : k' ≠ k) : getKey? (setKey l k v) k' = getKey? l k' := by
  unfold setKey
  by_cases hc : containsKey l k = true
  · rw [if_pos hc]
    exact getKey?_map_update_ne v h
  · rw [Bool.not_eq_true] at hc
    rw [if_neg (by rw [hc]; exact Bool.false_ne_true)]
    exact getKey?_append_single_ne l v h

theorem nodupKeys_cons {p : String × α} {l : List (String × α)}
    (h : NodupKeys (p :: l)) : containsKey l p.1 = false ∧ NodupKeys l := by
  unfold NodupKeys at *
  rw [List.map_cons, List.nodup_cons] at h
  refine ⟨?_, h.2⟩
  by_contra hc
  rw [Bool.not_eq_false] at hc
  exact h.1 (containsKey_iff_mem_keys.mp hc)

theorem map_update_eq_self {l : List (String × α)} {k : String} {v : α}
    (h : NodupKeys l) (hv : getKey? l k = some v) :
    l.map (fun p => if p.1 = k then (k, v) else p) = l := by
  induction l with
  | nil => rfl
  | cons p rest ih =>
    rw [getKey?_cons] at hv
    rcases nodupKeys_cons h with ⟨hnc, hnd⟩
    by_cases hp : p.1 = k
    · rw [if_pos hp] at hv
      injection hv with hv
      simp only [List.map_cons, if_pos hp]
      have hrest : rest.map (fun q => if q.1 = k then (k, v) else q)
          = rest := by
        have : ∀ q ∈ rest, (if q.1 = k then (k, v) else q) = q := by
          intro q hq
          rw [if_neg]
          intro hqk
          have : containsKey rest p.1 = true :=
            containsKey_iff_mem_keys.mpr
              (by rw [hp]; exact List.mem_map.mpr ⟨q, hq, hqk⟩)
          rw [hnc] at this
          exact Bool.noConfusion this
        calc rest.map (fun q => if q.1 = k then (k, v) else q)
            = rest.map id := List.map_congr_left this
          _ = rest := List.map_id rest
      rw [hrest]
      congr 1
      exact Prod.ext hp.symm hv.symm
  
    · rw [if_neg hp] at hv
      simp only [List.map_cons, if_neg hp]
      rw [ih hnd hv]

theorem setKey_eq_self {l : List (String × α)} {k : String} {v : α}
    (h : NodupKeys l) (hv : getKey? l k = some v) : setKey l k v = l := by
  have hc : containsKey l k = true := by
    by_contra hcc
    rw [Bool.not_eq_true] at hcc
    rw [getKey?_eq_none_of_not_contains hcc] at hv
    exact Option.noConfusion hv
  unfold setKey
  rw [if_pos hc]
  exact map_update_eq_self h hv

theorem length_setKey_of_contains {l : List (String × α)} {k : String}
    (v : α) (hc : containsKey l k = true) :
    (setKey l k v).length = l.length := by
  unfold setKey
  rw [if_pos hc, List.length_map]

theorem length_setKey_of_not_contains {l : List (String × α)} {k : String}
    (v : α) (hc : containsKey l k = false) :
    (setKey l k v).length = l.length + 1 := by
  unfold setKey
  rw [if_neg (by rw [hc]; exact Bool.false_ne_true), List.length_append,
    List.length_singleton]

theorem length_delKey_le (l : List (String × α)) (k : String) :
    (delKey l k).length ≤ l.length :=
  List.length_filter_le _ l

theorem length_delKey_of_contains {l : List (String × α)} {k : String}
    (h : NodupKeys l) (hc : containsKey l k = true) :
    (delKey l k).length + 1 = l.length := by
  induction l with
  | nil => simp [containsKey] at hc
  | cons p rest ih =>
    rcases nodupKeys_cons h with ⟨hnc, hnd⟩
    rw [delKey_cons]
    by_cases hp : p.1 = k
    · rw [if_pos hp]
      rw [delKey_eq_self_of_not_contains (by rw [← hp]; exact hnc)]
      rfl
    · rw [if_neg hp]
      rcases containsKey_cons_iff.mp hc with h1 | h2
      · exact absurd h1 hp
      · rw [List.length_cons, List.length_cons, ih hnd h2]

/-! ## ThreadStore deletion lemmas and claim C9 -/

theorem delete_thread_of_not_contains {tm : ThreadManager} {id : String}
    (h : containsKey tm.threads id = false) : tm.delete_thread id = tm := by
  unfold ThreadManager.delete_thread
  rw [if_neg (by rw [h]; exact Bool.false_ne_true)]

theorem threads_delete_thread (tm : ThreadManager) (id : String) :
    ((tm.delete_thread id).threads = delKey tm.threads id
      ∧ containsKey tm.threads id = true)
    ∨ (tm.delete_thread id = tm ∧ containsKey tm.threads id = false) := by
  by_cases hc : containsKey tm.threads id = true
  · left
    refine ⟨?_, hc⟩
    unfold ThreadManager.delete_thread
    rcases getKey?_isSome_of_contains hc with ⟨t, ht⟩
    rw [if_pos hc, ht]
  · rw [Bool.not_eq_true] at hc
    right
    exact ⟨delete_thread_of_not_contains hc, hc⟩

/-- Claim C9: deleting a thread twice in succession produces no error on the
second call — `delete_thread` is total and the second call is a no-op — and
`get_thread` returns `None` (NotFound) after each of the two calls. -/
theorem delete_thread_idempotent_c9 (tm : ThreadManager) (id : String) :
    (tm.delete_thread id).delete_thread id = tm.delete_thread id
    ∧ (tm.delete_thread id).get_thread id = none
    ∧ ((tm.delete_thread id).delete_thread id).get_thread id = none := by
  have hthreads : containsKey (tm.delete_thread id).threads id = false := by
    rcases threads_delete_thread tm id with ⟨h1, _⟩ | ⟨h1, h2⟩
    · rw [h1]; exact containsKey_delKey_self _ _
    · rw [h1]; exact h2
  have hsecond := delete_thread_of_not_contains hthreads
  refine ⟨hsecond, ?_, ?_⟩
  · exact getKey?_eq_none_of_not_contains hthreads
  · rw [hsecond]
    exact getKey?_eq_none_of_not_contains hthreads

/-! ## add_message and add_feedback lemmas -/

theorem add_message_eq (tm : ThreadManager) (sid : String) (m : ChatMessage)
    (now : Nat) {t : ChatThread} (hT : getKey? tm.threads sid = some t) :
    tm.add_message sid m now = .ok
      ({ tm with
          threads := setKey tm.threads sid
            (let msgs := getKeyD tm.messages sid [] ++ [m]
             let t1 : ChatThread :=
               { t with updated_at := some now,
                        message_count := msgs.length }
             if m.role == "user" && (t1.message_count == 1) then
               { t1 with title := some (ThreadManager.titleOf m.content) }
             else t1),
          messages := setKey tm.messages sid
            (getKeyD tm.messages sid [] ++ [m]) }, m) := by
  have ht : containsKey tm.threads sid = true := by
    by_contra h
    rw [Bool.not_eq_true] at h
    rw [getKey?_eq_none_of_not_contains h] at hT
    exact Option.noConfusion hT
  unfold ThreadManager.add_message
  rw [if_neg (by simp), if_neg (by rw [ht]; simp), hT]
  rfl

theorem add_message_contains {tm : ThreadManager} {sid : String}
    {m : ChatMessage} {now : Nat} {tm' : ThreadManager} {m' : ChatMessage}
    (h : tm.add_message sid m now = .ok (tm', m')) :
    containsKey tm.threads sid = true := by
  by_contra ht
  rw [Bool.not_eq_true] at ht
  unfold ThreadManager.add_message at h
  rw [if_neg (by simp), if_pos (by rw [ht]; simp)] at h
  exact Except.noConfusion h

theorem add_message_spec {tm : ThreadManager} {sid : String}
    {m : ChatMessage} {now : Nat} {tm' : ThreadManager} {m' : ChatMessage}
    (h : tm.add_message sid m now = .ok (tm', m')) :
    m' = m
    ∧ tm'.messages
        = setKey tm.messages sid (getKeyD tm.messages sid [] ++ [m])
    ∧ tm'.user_threads = tm.user_threads
    ∧ ∃ t : ChatThread, tm.get_thread sid = some t ∧
        tm'.threads = setKey tm.threads sid
          (let msgs := getKeyD tm.messages sid [] ++ [m]
           let t1 : ChatThread :=
             { t with updated_at := some now, message_count := msgs.length }
           if m.role == "user" && (t1.message_count == 1) then
             { t1 with title := some (ThreadManager.titleOf m.content) }
           else t1) := by
  have ht := add_message_contains h
  rcases getKey?_isSome_of_contains ht with ⟨t, hT⟩
  rw [add_message_eq tm sid m now hT] at h
  injection h with h
  injection h with h1 h2
  subst h1
  refine ⟨h2.symm, rfl, rfl, t, hT, rfl⟩

theorem add_message_spec2 {tm : ThreadManager} {sid : String}
    {m : ChatMessage} {now : Nat} {avail : Bool} {tm' : ThreadManager}
    {m' : ChatMessage}
    (h : tm.add_message sid m now avail = .ok (tm', m')) :
    m' = m
    ∧ tm'.messages
        = setKey tm.messages sid (getKeyD tm.messages sid [] ++ [m])
    ∧ tm'.user_threads = tm.user_threads
    ∧ ∃ t : ChatThread, tm.get_thread sid = some t ∧
        tm'.threads = setKey tm.threads sid
          (let msgs := getKeyD tm.messages sid [] ++ [m]
           let t1 : ChatThread :=
             { t with updated_at := some now, message_count := msgs.length }
           if m.role == "user" && (t1.message_count == 1) then
             { t1 with title := some (ThreadManager.titleOf m.content) }
           else t1) := by
  cases avail with
  | false =>
    exfalso
    unfold ThreadManager.add_message at h
    rw [if_pos (by simp)] at h
    exact Except.noConfusion h
  | true => exact add_message_spec h

theorem getKey?_mem {l : List (String × α)} {k : String} {v : α}
    (h : getKey? l k = some v) : (k, v) ∈ l := by
  unfold getKey? at h
  cases hf : l.find? (fun p => p.1 == k) with
  | none => rw [hf] at h; exact Option.noConfusion h
  | some p =>
    rw [hf] at h
    injection h with h
    have hm := List.mem_of_find?_eq_some hf
    have hk := List.find?_some hf
    have hp : p = (k, v) := Prod.ext (by simpa using hk) h
    rw [← hp]
    exact hm

theorem getKeyD_setKey_self (l : List (String × α)) (k : String) (v d : α) :
    getKeyD (setKey l k v) k d = v := by
  rw [getKeyD, getKey?_setKey_self]
  rfl

/-! ## Claim C7: thread title -/

/-- Claim C7 (amended): appending a user message as the thread's first
message sets the thread's title to the first 50 characters of the content,
with `"..."` appended when the content is longer than 50 characters
(`titleOf`); an append to a thread that already has at least one message
leaves the title unchanged. -/
theorem thread_title_c7 (tm : ThreadManager) (sid : String)
    (m : ChatMessage) (now : Nat)
    (ht : containsKey tm.threads sid = true) :
    (getKeyD tm.messages sid [] = [] → m.role = "user" →
      ((okState (tm.add_message sid m now)).bind
          (fun tm2 => (tm2.get_thread sid).map ChatThread.title))
        = some (some (ThreadManager.titleOf m.content)))
    ∧ (1 ≤ (getKeyD tm.messages sid []).length →
      ((okState (tm.add_message sid m now)).bind
          (fun tm2 => (tm2.get_thread sid).map ChatThread.title))
        = some (((tm.get_thread sid).map ChatThread.title).getD none)) := by
  rcases getKey?_isSome_of_contains ht with ⟨t, hT⟩
  rw [add_message_eq tm sid m now hT]
  constructor
  · intro h0 hrole
    simp only [okState, Option.some_bind, ThreadManager.get_thread]
    rw [getKey?_setKey_self]
    rw [h0]
    simp [hrole]
  · intro h1
    simp only [okState, Option.some_bind, ThreadManager.get_thread]
    rw [getKey?_setKey_self, hT]
    have hcond : ¬ ((m.role == "user"
        && ((getKeyD tm.messages sid [] ++ [m]).length == 1)) = true) := by
      intro hcond
      rw [Bool.and_eq_true] at hcond
      have h2 := hcond.2
      simp only [beq_iff_eq] at h2
      rw [List.length_append, List.length_singleton] at h2
      omega
    rw [if_neg hcond]
    rfl

set_option maxRecDepth 10000 in
/-- Claim C7 counterexample: on a 51-character first user message the code
stores the first 50 characters followed by `"..."`, which is not equal to
the first 50 characters of the content. -/
theorem thread_title_c7_counterexample :
    ((okState (tmT1.add_message "t1"
        { role := "user", content := c7Content } 1)).bind
      (fun tm2 => (tm2.get_thread "t1").map ChatThread.title))
      = some (some (c7Content.take 50 ++ "..."))
    ∧ c7Content.take 50 ++ "..." ≠ c7Content.take 50 := by decide

theorem thread_title_c7_witness :
    ((okState (tmT1.add_message "t1"
        { role := "user", content := "hi" } 1)).bind
      (fun tm2 => (tm2.get_thread "t1").map ChatThread.title))
    = some (some (ThreadManager.titleOf "hi")) :=
  (thread_title_c7 tmT1 "t1" { role := "user", content := "hi" } 1
    (by decide)).1 (by decide) rfl

/-! ## Claim C6: attachFeedback on an unknown messageId -/

theorem attachFeedbackFirst_nomatch {mid : String} {fb : Feedback}
    {l : List ChatMessage}
    (h : ∀ m ∈ l, pyEqOptStr m.message_id mid = false) :
    ThreadManager.attachFeedbackFirst mid fb l = l := by
  induction l with
  | nil => rfl
  | cons m rest ih =>
    unfold ThreadManager.attachFeedbackFirst
    rw [if_neg (by rw [h m (List.mem_cons_self m rest)]; simp)]
    rw [ih (fun m2 hm2 => h m2 (List.mem_cons_of_mem m hm2))]

theorem add_feedback_nomatch (tm : ThreadManager) (tid mid : String)
    (rating : Int) (comment : Option String) (uid : Option String)
    (now : Nat)
    (hc : containsKey tm.messages tid = true)
    (hnd : NodupKeys tm.messages)
    (hnone : ∀ m ∈ getKeyD tm.messages tid [],
      pyEqOptStr m.message_id mid = false) :
    tm.add_feedback tid mid rating comment uid now = .ok tm := by
  unfold ThreadManager.add_feedback
  rw [if_neg (by rw [hc]; simp)]
  dsimp only
  rw [attachFeedbackFirst_nomatch hnone]
  rcases getKey?_isSome_of_contains hc with ⟨v, hv⟩
  have hgd : getKeyD tm.messages tid [] = v := by
    rw [getKeyD, hv]
    rfl
  rw [hgd, setKey_eq_self hnd hv]

/-- Claim C6 (amended): when the thread has at least one recorded message
and the messageId matches none of them, `add_feedback` completes without
raising and attaches no feedback to any message (the store is unchanged);
but when the thread has no recorded messages the call raises `ValueError`,
even if the thread itself exists (see the counterexample). -/
theorem add_feedback_c6 (tm : ThreadManager) (tid mid : String)
    (rating : Int) (comment : Option String) (uid : Option String)
    (now : Nat)
    (hc : containsKey tm.messages tid = true)
    (hnd : NodupKeys tm.messages)
    (hnone : ∀ m ∈ getKeyD tm.messages tid [],
      pyEqOptStr m.message_id mid = false) :
    tm.add_feedback tid mid rating comment uid now = .ok tm :=
  add_feedback_nomatch tm tid mid rating comment uid now hc hnd hnone

/-- Claim C6 counterexample: the thread `"t1"` exists (so `"m1"` is a
messageId not present in it), yet `add_feedback` raises `ValueError`
rather than completing silently, because a thread that has no messages
has no entry in the `messages` dict. -/
theorem add_feedback_c6_counterexample :
    tmT1.add_feedback "t1" "m1" 5 none (some "u1") 3
      = .error "Thread t1 not found"
    ∧ tmT1.get_thread "t1" ≠ none := by decide

theorem add_feedback_c6_witness :
    tmT1WithMsgs.add_feedback "t1" "m1" 5 none (some "u1") 3
      = .ok tmT1WithMsgs :=
  add_feedback_c6 tmT1WithMsgs "t1" "m1" 5 none (some "u1") 3
    (by decide) (by decide) (by decide)

/-! ## Claim C10: message identity through the pipeline -/

/-- Claim C10: the pydantic model always has `message_id` and `timestamp`
attributes, so the `hasattr` guards in `add_message` never fire and the
store appends the message exactly as given (assigning nothing); every
message persisted through `generate_chat_response` therefore carries
`message_id = None`, and `add_feedback` — which matches by `message_id` —
either raises (thread unknown to the messages dict) or completes as a
no-op, never attaching feedback to a pipeline-created message, whatever
messageId string the caller supplies. -/
theorem message_id_c10 :
    (∀ (tm : ThreadManager) (sid : String) (m : ChatMessage) (now : Nat),
      (okMsg (tm.add_message sid m now) = none
        ∨ okMsg (tm.add_message sid m now) = some m)
      ∧ ((okState (tm.add_message sid m now)).map
            (fun tm2 => getKeyD tm2.messages sid []) = none
        ∨ (okState (tm.add_message sid m now)).map
            (fun tm2 => getKeyD tm2.messages sid [])
          = some (getKeyD tm.messages sid [] ++ [m])))
    ∧ (∀ (tm : ThreadManager) (system_prompt chat_model message sid : String)
        (uid : Option String) (use_rag : Bool) (env : AttemptEnv)
        (m : ChatMessage),
        m ∈ getKeyD (generateChatResponseBody tm system_prompt chat_model
            message sid uid use_rag env).1.messages sid [] →
        m ∈ getKeyD tm.messages sid [] ∨ m.message_id = none)
    ∧ (∀ (tm : ThreadManager) (tid mid : String) (rating : Int)
        (comment uid : Option String) (now : Nat),
        NodupKeys tm.messages →
        (∀ p ∈ tm.messages, ∀ m ∈ p.2, m.message_id = none) →
        tm.add_feedback tid mid rating comment uid now
            = .error ("Thread " ++ tid ++ " not found")
          ∨ tm.add_feedback tid mid rating comment uid now = .ok tm) := by
  refine ⟨?_, ?_, ?_⟩
  · intro tm sid m now
    cases h : tm.add_message sid m now with
    | error e => exact ⟨Or.inl rfl, Or.inl rfl⟩
    | ok p =>
      obtain ⟨tm2, m2⟩ := p
      rcases add_message_spec h with ⟨hm2, hmsgs, -, -⟩
      refine ⟨Or.inr ?_, Or.inr ?_⟩
      · show some m2 = some m
        rw [hm2]
      · show some (getKeyD tm2.messages sid [])
          = some (getKeyD tm.messages sid [] ++ [m])
        rw [hmsgs, getKeyD_setKey_self]
  · intro tm system_prompt chat_model message sid uid use_rag env m hm
    cases hg : env.gen with
    | error e =>
      simp only [generateChatResponseBody, hg] at hm
      exact Or.inl hm
    | ok resp =>
      simp only [generateChatResponseBody, hg] at hm
      cases h1 : tm.add_message sid
          { role := "user", content := message, timestamp := some env.tUser,
            user_id := uid } env.tAddUser env.userAvail with
      | error e =>
        rw [h1] at hm
        dsimp only at hm
        exact Or.inl hm
      | ok p1 =>
        obtain ⟨tm1, mu⟩ := p1
        rw [h1] at hm
        dsimp only at hm
        rcases add_message_spec2 h1 with ⟨-, hmsgs1, -, -⟩
        cases h2 : tm1.add_message sid
            { role := "assistant", content := resp,
              timestamp := some env.tAsst, user_id := uid }
            env.tAddAsst env.asstAvail with
        | error e =>
          rw [h2] at hm
          dsimp only at hm
          rw [hmsgs1, getKeyD_setKey_self] at hm
          rcases List.mem_append.mp hm with hmo | hmu
          · exact Or.inl hmo
          · right
            rw [List.mem_singleton.mp hmu]
        | ok p2 =>
          obtain ⟨tm2, ma⟩ := p2
          rw [h2] at hm
          dsimp only at hm
          rcases add_message_spec2 h2 with ⟨-, hmsgs2, -, -⟩
          rw [hmsgs2, getKeyD_setKey_self, hmsgs1, getKeyD_setKey_self]
            at hm
          rcases List.mem_append.mp hm with hm3 | hma
          · rcases List.mem_append.mp hm3 with hmo | hmu
            · exact Or.inl hmo
            · right
              rw [List.mem_singleton.mp hmu]
          · right
            rw [List.mem_singleton.mp hma]
  · intro tm tid mid rating comment uid now hnd hids
    by_cases hc : containsKey tm.messages tid = true
    · right
      refine add_feedback_nomatch tm tid mid rating comment uid now hc hnd ?_
      intro m hm
      rcases getKey?_isSome_of_contains hc with ⟨v, hv⟩
      have hgd : getKeyD tm.messages tid [] = v := by
        rw [getKeyD, hv]
        rfl
      rw [hgd] at hm
      have hid := hids (tid, v) (getKey?_mem hv) m hm
      rw [hid]
      rfl
    · left
      unfold ThreadManager.add_feedback
      rw [if_pos hc]

theorem message_id_c10_witness :
    (({ role := "user", content := "hello", timestamp := some 1,
        user_id := none } : ChatMessage) ∈ getKeyD tmT1.messages "t1" []
      ∨ ({ role := "user", content := "hello", timestamp := some 1,
           user_id := none } : ChatMessage).message_id = none)
    ∧ (tmT1WithMsgs.add_feedback "t1" "m1" 4 none (some "u1") 9
          = .error ("Thread " ++ "t1" ++ " not found")
        ∨ tmT1WithMsgs.add_feedback "t1" "m1" 4 none (some "u1") 9
          = .ok tmT1WithMsgs) :=
  ⟨message_id_c10.2.1 tmT1 "sys" "gpt-4" "hello" "t1" none false
      { gen := .ok "reply", tUser := 1, tAsst := 2, tAddUser := 1,
        tAddAsst := 2 }
      { role := "user", content := "hello", timestamp := some 1,
        user_id := none }
      (by decide),
   message_id_c10.2.2 tmT1WithMsgs "t1" "m1" 4 none (some "u1") 9
      (by decide) (by decide)⟩

/-! ## Claim C5: retrieval threshold, count and ordering -/

theorem contextParts_eq_map (results : List QueryMatch) :
    contextParts results
      = (ragRetained results).map (fun m => fmtPart (m.metadata.getD {})) := by
  induction results with
  | nil => rfl
  | cons m rest ih =>
    rw [contextParts, ragRetained, List.filter_cons]
    cases hmd : m.metadata with
    | none =>
      simp only [hmd, Option.isSome_none, Bool.false_and,
        Bool.false_eq_true, if_false]
      exact ih
    | some md =>
      by_cases hk : scoreKept m.score = true
      · simp only [hmd, Option.isSome_some, Bool.true_and, hk, if_true,
          List.map_cons, Option.getD_some]
        rw [ih, ragRetained]
      · rw [Bool.not_eq_true] at hk
        simp only [hmd, Option.isSome_some, Bool.true_and, hk,
          Bool.false_eq_true, if_false]
        exact ih

/-- Claim C5: retrieval with `topK = 5` and threshold `0.5` includes in
the returned context only results with score strictly greater than 0.5
(score at or below 0.5 is discarded), keeps at most 5 results, and —
given the vector index returns its matches in non-increasing score order —
keeps them in non-increasing score order. -/
theorem rag_threshold_c5 (results : List QueryMatch)
    (h5 : results.length ≤ 5)
    (hsort : List.Pairwise (fun a b => b.score ≤ a.score) results) :
    (∀ m ∈ ragRetained results, (0.5 : ℚ) < m.score)
    ∧ (ragRetained results).length ≤ 5
    ∧ List.Pairwise (fun a b => b.score ≤ a.score) (ragRetained results)
    ∧ contextParts results
        = (ragRetained results).map (fun m => fmtPart (m.metadata.getD {}))
        := by
  have hhalf : (0.5 : ℚ) = scoreThreshold := by
    norm_num [scoreThreshold, Rat.mkRat_eq_divInt]
  refine ⟨?_, ?_, ?_, contextParts_eq_map results⟩
  · intro m hm
    rcases List.mem_filter.mp hm with ⟨-, hpred⟩
    rw [Bool.and_eq_true] at hpred
    have h2 := hpred.2
    simp only [scoreKept, Bool.and_eq_true, bne_iff_ne, ne_eq,
      decide_eq_true_eq] at h2
    rw [hhalf]
    exact h2.2
  · exact le_trans (List.length_filter_le _ _) h5
  · exact hsort.sublist (List.filter_sublist _)

theorem rag_threshold_c5_witness :
    (ragRetained c5Matches).length ≤ 5
    ∧ List.Pairwise (fun a b => b.score ≤ a.score) (ragRetained c5Matches)
    ∧ contextParts c5Matches
        = (ragRetained c5Matches).map (fun m => fmtPart (m.metadata.getD {}))
        :=
  ⟨(rag_threshold_c5 c5Matches (by decide) (by decide)).2.1,
   (rag_threshold_c5 c5Matches (by decide) (by decide)).2.2.1,
   (rag_threshold_c5 c5Matches (by decide) (by decide)).2.2.2⟩

/-! ## Claim C3: prompt turn order -/

/-- Claim C3 counterexample: with one history turn and a non-empty
context, the code's prompt places the history turn before the context
turn, not after it as the claimed order prescribes. -/
theorem prompt_order_c3_counterexample :
    buildMessages "s" c3History "c" "m"
      ≠ buildMessagesSpecOrder "s" c3History "c" "m" := by decide

/-- Claim C3 (amended): the prompt is, in order: the system turn first,
then the history turns in chronological order, then — only when the
retrieved context is non-empty — one system turn carrying the context,
then the new user turn last; the history the pipeline passes in is
`get_messages(session_id, limit=10)`: the most recent 10 messages of the
thread, in chronological order. -/
theorem prompt_order_c3 (system_prompt : String)
    (history : List ChatMessage) (context message : String)
    (tm : ThreadManager) (sid : String)
    (hc : containsKey tm.messages sid = true) :
    buildMessages system_prompt history context message
      = [{ role := "system", content := system_prompt }]
        ++ history.map (fun m => { role := m.role, content := m.content })
        ++ (if context ≠ "" then
              [({ role := "system",
                  content := "Context from knowledge base:\n" ++ context }
                : Turn)]
            else [])
        ++ [{ role := "user", content := message }]
    ∧ tm.get_messages sid (some 10) none none
        = (getKeyD tm.messages sid []).drop
            ((getKeyD tm.messages sid []).length - 10) := by
  constructor
  · unfold buildMessages
    simp only [hasattrRole, hasattrContent, Bool.and_self, if_true]
    have hfm : ∀ (h : List ChatMessage),
        List.filterMap
          (fun m => some ({ role := m.role, content := m.content } : Turn)) h
          = h.map (fun m => { role := m.role, content := m.content }) := by
      intro h
      induction h with
      | nil => rfl
      | cons a t ih => simp [List.filterMap_cons, ih]
    rw [hfm]
    by_cases hctx : context ≠ ""
    · rw [if_pos hctx, if_pos hctx]
    · rw [if_neg hctx, if_neg hctx]
      simp
  · unfold ThreadManager.get_messages
    rw [if_neg (by rw [hc]; simp)]
    simp

theorem prompt_order_c3_witness :
    buildMessages "s" c3History "c" "m"
      = [{ role := "system", content := "s" }]
        ++ c3History.map (fun m => { role := m.role, content := m.content })
        ++ (if "c" ≠ "" then
              [({ role := "system",
                  content := "Context from knowledge base:\n" ++ "c" }
                : Turn)]
            else [])
        ++ [{ role := "user", content := "m" }]
    ∧ tmT1WithMsgs.get_messages "t1" (some 10) none none
        = (getKeyD tmT1WithMsgs.messages "t1" []).drop
            ((getKeyD tmT1WithMsgs.messages "t1" []).length - 10) :=
  prompt_order_c3 "s" c3History "c" "m" tmT1WithMsgs "t1" (by decide)

/-! ## The success path of the pipeline body -/

theorem message_count_of_ite (t1 : ChatThread) (c : Prop) [Decidable c]
    (title : Option String) :
    ChatThread.message_count
      (if c then { t1 with title := title } else t1)
      = t1.message_count := by
  split <;> rfl

theorem body_persist (tm : ThreadManager)
    (system_prompt chat_model message sid : String) (uid : Option String)
    (use_rag : Bool) (env : AttemptEnv) (resp : String)
    (hg : env.gen = .ok resp) (hu : env.userAvail = true)
    (ha : env.asstAvail = true)
    (hc : containsKey tm.threads sid = true) :
    (generateChatResponseBody tm system_prompt chat_model message sid uid
        use_rag env).2.success = true
    ∧ (generateChatResponseBody tm system_prompt chat_model message sid uid
        use_rag env).2.context_used
      = some ((if use_rag then getRagContext env.embedRes env.queryRes
               else "") != "")
    ∧ containsKey (generateChatResponseBody tm system_prompt chat_model
        message sid uid use_rag env).1.threads sid = true
    ∧ getKeyD (generateChatResponseBody tm system_prompt chat_model message
        sid uid use_rag env).1.messages sid []
      = getKeyD tm.messages sid []
        ++ [{ role := "user", content := message,
              timestamp := some env.tUser, user_id := uid },
            { role := "assistant", content := resp,
              timestamp := some env.tAsst, user_id := uid }]
    ∧ ((generateChatResponseBody tm system_prompt chat_model message sid uid
        use_rag env).1.get_thread sid).map (fun t => t.message_count)
      = some ((getKeyD tm.messages sid []).length + 2) := by
  simp only [generateChatResponseBody, hg]
  cases h1 : tm.add_message sid
      { role := "user", content := message, timestamp := some env.tUser,
        user_id := uid } env.tAddUser env.userAvail with
  | error e1 =>
    exfalso
    rw [hu] at h1
    rcases getKey?_isSome_of_contains hc with ⟨t, hT⟩
    rw [add_message_eq tm sid _ env.tAddUser hT] at h1
    exact Except.noConfusion h1
  | ok p1 =>
    obtain ⟨tm1, mu⟩ := p1
    dsimp only
    rcases add_message_spec2 h1 with ⟨-, hmsgs1, -, t, hT, hthr1⟩
    have hc1 : containsKey tm1.threads sid = true := by
      rw [hthr1]
      exact containsKey_setKey_self _ _ _
    cases h2 : tm1.add_message sid
        { role := "assistant", content := resp,
          timestamp := some env.tAsst, user_id := uid }
        env.tAddAsst env.asstAvail with
    | error e2 =>
      exfalso
      rw [ha] at h2
      rcases getKey?_isSome_of_contains hc1 with ⟨t1, hT1⟩
      rw [add_message_eq tm1 sid _ env.tAddAsst hT1] at h2
      exact Except.noConfusion h2
    | ok p2 =>
      obtain ⟨tm2, ma⟩ := p2
      dsimp only
      rcases add_message_spec2 h2 with ⟨-, hmsgs2, -, t1, hT1, hthr2⟩
      refine ⟨rfl, rfl, ?_, ?_, ?_⟩
      · show containsKey tm2.threads sid = true
        rw [hthr2]
        exact containsKey_setKey_self _ _ _
      · show getKeyD tm2.messages sid [] = _
        rw [hmsgs2, getKeyD_setKey_self, hmsgs1, getKeyD_setKey_self,
          List.append_assoc]
        rfl
      · show (ThreadManager.get_thread tm2 sid).map _ = _
        unfold ThreadManager.get_thread
        rw [hthr2, getKey?_setKey_self]
        dsimp only
        rw [hmsgs1, getKeyD_setKey_self]
        split <;> simp [List.length_append]

/-! ## Claim C4: retrieval failures are absorbed -/

/-- Claim C4: `_get_rag_context` never raises on a retrieval-backend
failure — a failing embedding call or a failing vector-index query both
yield the empty context — and the pipeline proceeds: with `use_rag = true`
and the vector index unreachable, the result has `success = true` (when
generation succeeds and the store persists both messages) and
`context_used = false`. -/
theorem rag_failure_c4 :
    (∀ (e : String) (q : Emb → Except String (List QueryMatch)),
        getRagContext (.error e) q = "")
    ∧ (∀ (emb : Emb) (q : Emb → Except String (List QueryMatch))
        (e : String), (∀ v, q v = .error e) →
        getRagContext (.ok emb) q = "")
    ∧ (∀ (tm : ThreadManager)
        (system_prompt chat_model message sid : String)
        (uid : Option String) (env : AttemptEnv) (resp e : String),
        env.gen = .ok resp → env.userAvail = true → env.asstAvail = true →
        (∀ emb, env.queryRes emb = .error e) →
        containsKey tm.threads sid = true →
        (generateChatResponseBody tm system_prompt chat_model message sid
            uid true env).2.success = true
        ∧ (generateChatResponseBody tm system_prompt chat_model message sid
            uid true env).2.context_used = some false) := by
  refine ⟨fun e q => rfl, ?_, ?_⟩
  · intro emb q e hq
    unfold getRagContext
    dsimp only
    rw [hq emb]
  · intro tm system_prompt chat_model message sid uid env resp e hg hu ha
      hq hc
    have hctx : getRagContext env.embedRes env.queryRes = "" := by
      unfold getRagContext
      cases henv : env.embedRes with
      | error _ => rfl
      | ok emb =>
        dsimp only
        rw [hq emb]
    rcases body_persist tm system_prompt chat_model message sid uid true
      env resp hg hu ha hc with ⟨hsucc, hcu, -, -, -⟩
    refine ⟨hsucc, ?_⟩
    rw [hcu]
    simp [hctx]

theorem rag_failure_c4_witness :
    (generateChatResponseBody tmT1 "sys" "gpt-4" "hi" "t1" none true
        c4Env).2.success = true
    ∧ (generateChatResponseBody tmT1 "sys" "gpt-4" "hi" "t1" none true
        c4Env).2.context_used = some false :=
  rag_failure_c4.2.2 tmT1 "sys" "gpt-4" "hi" "t1" none c4Env "reply"
    "index unreachable" rfl rfl rfl (fun _ => rfl) (by decide)

/-! ## Claim C2: the retry decorator -/

/-- Claim C2 (amended): the decorator is configured with
`stop_after_attempt(3)` and `wait_exponential(multiplier=1, min=4,
max=10)` and would retry on any raised exception; but the body converts
every exception into a returned failure dict, so no attempt ever raises
and no retry (nor any backoff sleep) ever occurs: the wrapped call always
returns the first attempt's result, and when the generation backend fails
on the first attempt — transiently or not — respond returns
`success=false` with the apology message and the thread gains no
exchange. -/
theorem retry_c2 :
    (∀ (tm : ThreadManager) (system_prompt chat_model message sid : String)
        (uid : Option String) (use_rag : Bool) (envs : Nat → AttemptEnv),
      generate_chat_response tm system_prompt chat_model message sid uid
          use_rag envs
        = .ok (generateChatResponseBody tm system_prompt chat_model message
            sid uid use_rag (envs 0)))
    ∧ (∀ (tm : ThreadManager) (system_prompt chat_model message sid : String)
        (uid : Option String) (use_rag : Bool) (envs : Nat → AttemptEnv)
        (e : GenError),
      (envs 0).gen = .error e →
      generate_chat_response tm system_prompt chat_model message sid uid
          use_rag envs
        = .ok (tm, failureResult e.msg)) := by
  constructor
  · intro tm system_prompt chat_model message sid uid use_rag envs
    rfl
  · intro tm system_prompt chat_model message sid uid use_rag envs e hg
    have hwrap : generate_chat_response tm system_prompt chat_model message
        sid uid use_rag envs
        = .ok (generateChatResponseBody tm system_prompt chat_model message
            sid uid use_rag (envs 0)) := rfl
    have hbody : generateChatResponseBody tm system_prompt chat_model
        message sid uid use_rag (envs 0) = (tm, failureResult e.msg) := by
      simp [generateChatResponseBody, hg]
    rw [hwrap, hbody]

set_option maxRecDepth 10000 in
/-- Claim C2 counterexample: Scenario C — the generation backend fails
with a transient timeout on the first two attempts and would succeed on
the third; but `respond` returns after the first attempt with
`success = false` and the thread gains no exchange (the store is
unchanged), because the body never raises and `tenacity` therefore never
retries.  The claim expects `success=true` and exactly one exchange. -/
theorem retry_c2_counterexample :
    generate_chat_response tmT1 "sys" "gpt-4" "hi" "t1" none false
        scenarioCEnvs
      = .ok (tmT1, failureResult (GenError.timeout).msg)
    ∧ (failureResult (GenError.timeout).msg).success = false
    ∧ (tmT1.get_messages "t1").length = 0
    ∧ (scenarioCEnvs 0).gen = .error .timeout
    ∧ (scenarioCEnvs 1).gen = .error .timeout
    ∧ (scenarioCEnvs 2).gen = .ok "reply" := by decide

theorem retry_c2_witness :
    generate_chat_response tmT1 "sys" "gpt-4" "hi" "t1" none false
        scenarioCEnvs
      = .ok (tmT1, failureResult (GenError.timeout).msg) :=
  retry_c2.2 tmT1 "sys" "gpt-4" "hi" "t1" none false scenarioCEnvs
    .timeout (by decide)

/-! ## Claim C8: EmbeddingCache eviction -/

theorem minByVal_le (p : String × Nat) (l : List (String × Nat)) :
    (minByVal p l).2 ≤ p.2 ∧ ∀ q ∈ l, (minByVal p l).2 ≤ q.2 := by
  induction l generalizing p with
  | nil =>
    exact ⟨le_refl _, fun q hq => absurd hq (List.not_mem_nil q)⟩
  | cons q rest ih =>
    unfold minByVal
    by_cases h : q.2 < p.2
    · rw [if_pos h]
      rcases ih q with ⟨h1, h2⟩
      refine ⟨le_trans h1 (le_of_lt h), fun r hr => ?_⟩
      rcases List.mem_cons.mp hr with hrq | hr
      · rw [hrq]
        exact h1
      · exact h2 r hr
    · rw [if_neg h]
      rcases ih p with ⟨h1, h2⟩
      refine ⟨h1, fun r hr => ?_⟩
      rcases List.mem_cons.mp hr with hrq | hr
      · rw [hrq]
        exact le_trans h1 (not_lt.mp h)
      · exact h2 r hr

theorem minByVal_mem (p : String × Nat) (l : List (String × Nat)) :
    minByVal p l = p ∨ minByVal p l ∈ l := by
  induction l generalizing p with
  | nil => exact Or.inl rfl
  | cons q rest ih =>
    unfold minByVal
    by_cases h : q.2 < p.2
    · rw [if_pos h]
      rcases ih q with h1 | h1
      · right
        rw [h1]
        exact List.mem_cons_self q rest
      · exact Or.inr (List.mem_cons_of_mem q h1)
    · rw [if_neg h]
      rcases ih p with h1 | h1
      · exact Or.inl h1
      · exact Or.inr (List.mem_cons_of_mem q h1)

theorem evictLru_spec {c : EmbeddingCache} {p : String × Nat}
    {rest : List (String × Nat)} {q0 : String × Emb}
    {qrest : List (String × Emb)}
    (hacc : c.access_count = p :: rest) (hcc : c.cache = q0 :: qrest) :
    EmbeddingCache.evictLru c = { c with
      cache := delKey c.cache (minByVal p rest).1,
      access_count := delKey c.access_count (minByVal p rest).1,
      created_at := delKey c.created_at (minByVal p rest).1 } := by
  unfold EmbeddingCache.evictLru
  rw [hcc, hacc]

theorem set_spec_full {c : EmbeddingCache} {k : String} {v : Emb}
    {now : Nat} {p : String × Nat} {rest : List (String × Nat)}
    {q0 : String × Emb} {qrest : List (String × Emb)}
    (hacc : c.access_count = p :: rest) (hcc : c.cache = q0 :: qrest)
    (hfull : c.cache.length ≥ c.max_size) :
    (c.set k v now).cache
      = setKey (delKey c.cache (minByVal p rest).1) k v := by
  unfold EmbeddingCache.set
  rw [if_pos hfull, evictLru_spec hacc hcc]

theorem set_spec_notfull {c : EmbeddingCache} {k : String} {v : Emb}
    {now : Nat} (h : ¬ c.cache.length ≥ c.max_size) :
    (c.set k v now).cache = setKey c.cache k v := by
  unfold EmbeddingCache.set
  rw [if_neg h]

theorem lru_key_in_cache {c : EmbeddingCache} {p : String × Nat}
    {rest : List (String × Nat)}
    (hkeys : c.cache.map Prod.fst = c.access_count.map Prod.fst)
    (hacc : c.access_count = p :: rest) :
    containsKey c.cache (minByVal p rest).1 = true := by
  have hmemacc : minByVal p rest ∈ c.access_count := by
    rw [hacc]
    rcases minByVal_mem p rest with h | h
    · rw [h]
      exact List.mem_cons_self _ _
    · exact List.mem_cons_of_mem _ h
  refine containsKey_iff_mem_keys.mpr ?_
  rw [hkeys]
  exact List.mem_map.mpr ⟨minByVal p rest, hmemacc, rfl⟩

/-- Claim C8 (amended, for capacity K ≥ 1): a well-formed cache of
capacity K holding exactly K entries, on inserting a fresh key, evicts
exactly one entry before the insert — afterwards it again holds K entries
and the evicted key (the first key of smallest access counter, a
deterministic tie-break by dict insertion order) is gone — and the
evicted entry's access counter is ≤ the access counter of every entry
present at eviction time; moreover for K ≥ 1 a `set` never grows a cache
beyond K entries.  At K = 0 the code instead grows the cache to 1 entry
(see the counterexample). -/
theorem cache_evict_c8 :
    (∀ (c : EmbeddingCache) (k : String) (v : Emb) (now : Nat)
        (p : String × Nat) (rest : List (String × Nat)),
      CacheWf c → 1 ≤ c.max_size → c.cache.length = c.max_size →
      containsKey c.cache k = false →
      c.access_count = p :: rest →
      (c.set k v now).cache.length = c.max_size
      ∧ containsKey c.cache (minByVal p rest).1 = true
      ∧ containsKey (c.set k v now).cache (minByVal p rest).1 = false
      ∧ (∀ q ∈ c.access_count, (minByVal p rest).2 ≤ q.2))
    ∧ (∀ (c : EmbeddingCache) (k : String) (v : Emb) (now : Nat),
      CacheWf c → 1 ≤ c.max_size → c.cache.length ≤ c.max_size →
      (c.set k v now).cache.length ≤ c.max_size) := by
  constructor
  · intro c k v now p rest hwf h1 hlen hnk hacc
    obtain ⟨hkeys, hnd⟩ := hwf
    have hcne : c.cache ≠ [] := by
      intro hnil
      rw [hnil] at hlen
      simp at hlen
      omega
    obtain ⟨q0, qrest, hcc⟩ : ∃ q0 qrest, c.cache = q0 :: qrest := by
      cases hc2 : c.cache with
      | nil => exact absurd hc2 hcne
      | cons a b => exact ⟨a, b, rfl⟩
    have hcontains : containsKey c.cache (minByVal p rest).1 = true :=
      lru_key_in_cache hkeys hacc
    have hkne : (minByVal p rest).1 ≠ k := by
      intro hkk
      rw [hkk] at hcontains
      rw [hcontains] at hnk
      exact Bool.noConfusion hnk
    have hsetc := @set_spec_full c k v now p rest q0 qrest hacc hcc
      (ge_of_eq hlen)
    have hdel_nk :
        containsKey (delKey c.cache (minByVal p rest).1) k = false := by
      by_contra hdc
      rw [Bool.not_eq_false] at hdc
      rcases List.mem_map.mp (containsKey_iff_mem_keys.mp hdc)
        with ⟨q, hq, hqk⟩
      have hq2 : q ∈ c.cache := List.mem_of_mem_filter hq
      have hck : containsKey c.cache k = true :=
        containsKey_iff_mem_keys.mpr (List.mem_map.mpr ⟨q, hq2, hqk⟩)
      rw [hck] at hnk
      exact Bool.noConfusion hnk
    refine ⟨?_, hcontains, ?_, ?_⟩
    · rw [hsetc, length_setKey_of_not_contains _ hdel_nk]
      have hdl := length_delKey_of_contains hnd hcontains
      omega
    · rw [hsetc]
      by_contra hcc2
      rw [Bool.not_eq_false] at hcc2
      rcases getKey?_isSome_of_contains hcc2 with ⟨w, hw⟩
      rw [getKey?_setKey_ne _ _ hkne, getKey?_delKey_self] at hw
      exact Option.noConfusion hw
    · intro q hq
      rcases minByVal_le p rest with ⟨hp, hr⟩
      rw [hacc] at hq
      rcases List.mem_cons.mp hq with hqp | hq
      · rw [hqp]
        exact hp
      · exact hr q hq
  · intro c k v now hwf h1 hle
    obtain ⟨hkeys, hnd⟩ := hwf
    by_cases hfull : c.cache.length ≥ c.max_size
    · have hlen : c.cache.length = c.max_size := le_antisymm hle hfull
      have hcne : c.cache ≠ [] := by
        intro hnil
        rw [hnil] at hlen
        simp at hlen
        omega
      obtain ⟨q0, qrest, hcc⟩ : ∃ q0 qrest, c.cache = q0 :: qrest := by
        cases hc2 : c.cache with
        | nil => exact absurd hc2 hcne
        | cons a b => exact ⟨a, b, rfl⟩
      cases hacc : c.access_count with
      | nil =>
        exfalso
        rw [hacc, hcc] at hkeys
        exact List.noConfusion hkeys
      | cons p rest =>
        have hcontains : containsKey c.cache (minByVal p rest).1 = true :=
          lru_key_in_cache hkeys hacc
        have hdl := length_delKey_of_contains hnd hcontains
        have hsetc := @set_spec_full c k v now p rest q0 qrest hacc hcc
          hfull
        rw [hsetc]
        by_cases hck :
            containsKey (delKey c.cache (minByVal p rest).1) k = true
        · rw [length_setKey_of_contains _ hck]
          have := length_delKey_le c.cache (minByVal p rest).1
          omega
        · rw [Bool.not_eq_true] at hck
          rw [length_setKey_of_not_contains _ hck]
          omega
    · have hlt : c.cache.length < c.max_size := lt_of_not_ge hfull
      rw [set_spec_notfull hfull]
      by_cases hck : containsKey c.cache k = true
      · rw [length_setKey_of_contains _ hck]
        exact hle
      · rw [Bool.not_eq_true] at hck
        rw [length_setKey_of_not_contains _ hck]
        omega

/-- Claim C8 counterexample: a capacity-0 cache holds 0 = K entries;
inserting one distinct key evicts nothing (the cache is empty) and leaves
the cache holding 1 > K entries, so neither "always evicts exactly one
entry" nor "never holds more than K entries" survives at K = 0. -/
theorem cache_evict_c8_counterexample :
    (cacheZero.set "a" [] 0).cache.length = 1
    ∧ ¬ ((cacheZero.set "a" [] 0).cache.length ≤ cacheZero.max_size) := by
  decide

theorem cache_evict_c8_witness :
    (cacheOne.set "b" [] 1).cache.length = cacheOne.max_size
    ∧ containsKey cacheOne.cache (minByVal ("a", 0) []).1 = true
    ∧ containsKey (cacheOne.set "b" [] 1).cache (minByVal ("a", 0) []).1
        = false
    ∧ (cacheOne.set "b" [] 1).cache.length ≤ cacheOne.max_size :=
  have h := cache_evict_c8.1 cacheOne "b" [] 1 ("a", 0) []
    (by decide) (by decide) (by decide) (by decide) (by decide)
  ⟨h.1, h.2.1, h.2.2.1,
   cache_evict_c8.2 cacheOne "b" [] 1 (by decide) (by decide) (by decide)⟩

/-! ## Claim C1: sequences of exchanges on one thread -/

theorem runExchange_spec (tm : ThreadManager)
    (system_prompt chat_model sid : String) (e : ExchangeCall)
    (ht : containsKey tm.threads sid = true) :
    containsKey (runExchange tm system_prompt chat_model sid e).threads sid
        = true
    ∧ getKeyD (runExchange tm system_prompt chat_model sid e).messages
          sid []
        = getKeyD tm.messages sid [] ++ [userMsgOf e, asstMsgOf e]
    ∧ ((runExchange tm system_prompt chat_model sid e).get_thread sid).map
          (fun t => t.message_count)
        = some ((getKeyD tm.messages sid []).length + 2) := by
  rcases body_persist tm system_prompt chat_model e.userContent sid e.uid
    false (exchangeEnv e) e.asstReply rfl rfl rfl ht
    with ⟨-, -, hct, hmsgs, hcount⟩
  exact ⟨hct, hmsgs, hcount⟩

theorem runExchanges_spec (system_prompt chat_model sid : String)
    (calls : List ExchangeCall) :
    ∀ tm : ThreadManager, containsKey tm.threads sid = true →
      containsKey (runExchanges tm system_prompt chat_model sid
          calls).threads sid = true
      ∧ getKeyD (runExchanges tm system_prompt chat_model sid
            calls).messages sid []
        = getKeyD tm.messages sid []
          ++ calls.flatMap (fun e => [userMsgOf e, asstMsgOf e])
      ∧ (calls ≠ [] →
        ((runExchanges tm system_prompt chat_model sid calls).get_thread
            sid).map (fun t => t.message_count)
          = some ((getKeyD tm.messages sid []).length
              + 2 * calls.length)) := by
  induction calls with
  | nil =>
    intro tm ht
    exact ⟨ht, by simp [runExchanges], fun hne => absurd rfl hne⟩
  | cons e rest ih =>
    intro tm ht
    rcases runExchange_spec tm system_prompt chat_model sid e ht
      with ⟨hct, hmsgs, hcount⟩
    rcases ih (runExchange tm system_prompt chat_model sid e) hct
      with ⟨hct2, hmsgs2, hcount2⟩
    refine ⟨hct2, ?_, ?_⟩
    · show getKeyD (runExchanges _ system_prompt chat_model sid
          rest).messages sid [] = _
      rw [hmsgs2, hmsgs]
      simp [List.flatMap_cons, List.append_assoc]
    · intro hne
      cases hrest : rest with
      | nil =>
        subst hrest
        rw [show runExchanges tm system_prompt chat_model sid [e] =
            runExchange tm system_prompt chat_model sid e from rfl]
        rw [hcount]
        simp
      | cons e2 rest2 =>
        subst hrest
        have hcnt := hcount2 (List.cons_ne_nil e2 rest2)
        rw [show runExchanges tm system_prompt chat_model sid
            (e :: e2 :: rest2)
            = runExchanges (runExchange tm system_prompt chat_model sid e)
              system_prompt chat_model sid (e2 :: rest2) from rfl]
        rw [hcnt, hmsgs]
        congr 1
        rw [List.length_append]
        simp only [List.length_cons, List.length_nil]
        omega

theorem flatMap_pair_length (calls : List ExchangeCall) :
    (calls.flatMap (fun e => [userMsgOf e, asstMsgOf e])).length
      = 2 * calls.length := by
  induction calls with
  | nil => rfl
  | cons e rest ih =>
    simp only [List.flatMap_cons, List.length_append, List.length_cons,
      List.length_nil, ih, List.length_cons]
    omega

theorem filterMap_timestamps (calls : List ExchangeCall) :
    ((calls.flatMap (fun e => [userMsgOf e, asstMsgOf e])).filterMap
      (fun m => m.timestamp))
    = calls.flatMap (fun e => [e.tUser, e.tAsst]) := by
  induction calls with
  | nil => rfl
  | cons e rest ih =>
    rw [List.flatMap_cons, List.flatMap_cons, List.filterMap_append, ih]
    rfl

/-- Claim C1 (amended): the code has no atomic `appendExchange`; each
exchange is persisted by two separate `add_message` calls inside
`generate_chat_response`.  For sequences of exchanges whose generation and
both persists succeed, starting from a thread with no messages: the
message sequence is exactly the user/assistant pairs in call order, so its
length is `2 × callCount`, `message_count` equals that length after every
exchange, and the stored timestamps are the `utcnow` instants read for the
messages — strictly increasing whenever those instants are.  When
persisting the second message of an exchange fails, however, the first
message remains appended and a half-exchange is observable (see the
counterexample). -/
theorem append_exchange_c1 (tm : ThreadManager)
    (system_prompt chat_model sid : String) (calls : List ExchangeCall)
    (ht : containsKey tm.threads sid = true)
    (h0 : getKeyD tm.messages sid [] = [])
    (hclock : List.Chain' (· < ·)
      (calls.flatMap (fun e => [e.tUser, e.tAsst]))) :
    (getKeyD (runExchanges tm system_prompt chat_model sid calls).messages
        sid []).length = 2 * calls.length
    ∧ (getKeyD (runExchanges tm system_prompt chat_model sid
          calls).messages sid []).filterMap (fun m => m.timestamp)
      = calls.flatMap (fun e => [e.tUser, e.tAsst])
    ∧ List.Chain' (· < ·)
        ((getKeyD (runExchanges tm system_prompt chat_model sid
          calls).messages sid []).filterMap (fun m => m.timestamp))
    ∧ (calls ≠ [] →
      ((runExchanges tm system_prompt chat_model sid calls).get_thread
          sid).map (fun t => t.message_count)
        = some (2 * calls.length)) := by
  rcases runExchanges_spec system_prompt chat_model sid calls tm ht
    with ⟨-, hmsgs, hcount⟩
  rw [hmsgs, h0, List.nil_append]
  refine ⟨flatMap_pair_length calls, filterMap_timestamps calls, ?_, ?_⟩
  · rw [filterMap_timestamps calls]
    exact hclock
  · intro hne
    rw [hcount hne, h0]
    simp

set_option maxRecDepth 10000 in
/-- Claim C1 counterexample: one exchange whose assistant-message persist
fails leaves the user message appended and visible: a reader
(`get_messages`) observes exactly one message — the user half of the
exchange — so the two messages are not "both visible or neither", and the
sequence length is 1, not 2 × 1. -/
theorem append_exchange_c1_counterexample :
    ((generateChatResponseBody tmT1 "sys" "gpt-4" "hello" "t1" none false
        c1cxEnv).1.get_messages "t1").map (fun m => m.role) = ["user"]
    ∧ (generateChatResponseBody tmT1 "sys" "gpt-4" "hello" "t1" none false
        c1cxEnv).2.success = false := by decide

theorem append_exchange_c1_witness :
    (getKeyD (runExchanges tmT1 "sys" "gpt-4" "t1" c1Calls).messages
        "t1" []).length = 2 * c1Calls.length
    ∧ (getKeyD (runExchanges tmT1 "sys" "gpt-4" "t1" c1Calls).messages
        "t1" []).filterMap (fun m => m.timestamp)
      = c1Calls.flatMap (fun e => [e.tUser, e.tAsst])
    ∧ ((runExchanges tmT1 "sys" "gpt-4" "t1" c1Calls).get_thread
        "t1").map (fun t => t.message_count) = some (2 * c1Calls.length) :=
  have h := append_exchange_c1 tmT1 "sys" "gpt-4" "t1" c1Calls
    (by decide) (by decide)
    (by simp [c1Calls, List.chain'_cons, List.chain'_singleton])
  ⟨h.1, h.2.1, h.2.2.2 (by decide)⟩

end MorganAI
